import Mathlib

/-!
Verification of the TrackMyLife weekly habit tracker (`src/components/ui/countdown-timer.tsx`,
the "Track My Life" page).  The TypeScript source is shallowly embedded: JS numbers that hold
task counts become `Nat`, fractional progress values become `Rat`, JS arrays become `List`,
optional / nullable fields become `Option`, and the `localStorage` JSON document becomes an
explicit `Json` tree.  Every definition mirrors one function of the source, quoted in its
doc comment.
-/

namespace TrackMyLife

/-- `type Section = "Studies" | "Personal Life"`. -/
inductive Section where
  | studies
  | personalLife
deriving DecidableEq

/-- `type TaskTemplate = { id: string; label: string }`. -/
structure TaskTemplate where
  id : String
  label : String
deriving DecidableEq

/-- `type DayState = { completedTasks: string[]; note?: string }`.
The optional `note` becomes `Option String` (`none` = the field is absent / `undefined`). -/
structure DayState where
  completedTasks : List String
  note : Option String
deriving DecidableEq

/-- `type Goal = { id; label; section; tasks; days }` (`days` has length 7 in valid data).
The source field `section` is a Lean keyword, hence the guillemets. -/
structure Goal where
  id : String
  label : String
  «section» : Section
  tasks : List TaskTemplate
  days : List DayState
deriving DecidableEq

/-- `type WeekSummary` of the source.  `bestGoalId`/`bestGoalLabel` are nullable. -/
structure WeekSummary where
  id : String
  startISO : String
  endISO : String
  totalCompletedTasks : Nat
  totalPossibleTasks : Nat
  bestGoalId : Option String
  bestGoalLabel : Option String
  bestGoalCompletion : ℚ
deriving DecidableEq

/-- `type TrackerState = { weekStartISO: string; goals: Goal[]; history: WeekSummary[] }`. -/
structure TrackerState where
  weekStartISO : String
  goals : List Goal
  history : List WeekSummary
deriving DecidableEq

/-- `const NUM_DAYS = 7`. -/
def NUM_DAYS : Nat := 7

/-- `function emptyDay(): DayState { return { completedTasks: [], note: "" }; }` -/
def emptyDay : DayState := { completedTasks := [], note := some "" }

/-- `function emptyDays(): DayState[] { return Array.from({ length: NUM_DAYS }, () => emptyDay()); }` -/
def emptyDays : List DayState := List.replicate NUM_DAYS emptyDay

/-- The `seedGoals` constant of the source, transcribed verbatim. -/
def seedGoals : List Goal :=
  [ { id := "intro-llm", label := "Intro to LLM", «section» := .studies,
      tasks := [ { id := "llm-notes", label := "Review lecture notes" },
                 { id := "llm-ex", label := "Solve 2 practice questions" },
                 { id := "llm-reading", label := "Read 5 pages" },
                 { id := "llm-video", label := "Watch 10 min recap" } ],
      days := emptyDays },
    { id := "sdms", label := "SDMS", «section» := .studies,
      tasks := [ { id := "sdms-reading", label := "Read 3 pages of script" },
                 { id := "sdms-quiz", label := "Do 5 quiz questions" },
                 { id := "sdms-notes", label := "Organise notes" } ],
      days := emptyDays },
    { id := "pgm", label := "PGM", «section» := .studies,
      tasks := [ { id := "pgm-slides", label := "Scan slides 10 min" },
                 { id := "pgm-problem", label := "Attempt 1 problem" },
                 { id := "pgm-solution", label := "Check 1 solution" } ],
      days := emptyDays },
    { id := "crypto", label := "Intro to Crypto", «section» := .studies,
      tasks := [ { id := "crypto-topic", label := "Read 1 topic" },
                 { id := "crypto-summary", label := "Write 3 bullet summary" } ],
      days := emptyDays },
    { id := "german-a2", label := "German A2", «section» := .studies,
      tasks := [ { id := "german-vocab", label := "Learn 5 new words" },
                 { id := "german-speak", label := "Speak 5 min" },
                 { id := "german-grammar", label := "One grammar exercise" } ],
      days := emptyDays },
    { id := "content-workout", label := "Content Creation + Workout", «section» := .personalLife,
      tasks := [ { id := "content-idea", label := "Brainstorm 3 ideas" },
                 { id := "content-draft", label := "Draft 1 post/reel" },
                 { id := "workout-20", label := "20 min workout" },
                 { id := "walk-steps", label := "5k steps" } ],
      days := emptyDays },
    { id := "guitar", label := "Guitar", «section» := .personalLife,
      tasks := [ { id := "guitar-chords", label := "Practice chords 10 min" },
                 { id := "guitar-song", label := "Play 1 full song" },
                 { id := "guitar-metronome", label := "5 min with metronome" } ],
      days := emptyDays },
    { id := "eng-speaking", label := "Eng speaking", «section» := .personalLife,
      tasks := [ { id := "eng-shadow", label := "Shadow 5 min video" },
                 { id := "eng-record", label := "Record 2 min monologue" },
                 { id := "eng-words", label := "Learn 5 new phrases" } ],
      days := emptyDays } ]

/-- `function defaultState(): TrackerState`.  The source reads the wall clock through
`todayISO()`; following the spec's injectable-time note, the current date is a parameter. -/
def defaultState (today : String) : TrackerState :=
  { weekStartISO := today, goals := seedGoals, history := [] }

/-- `function stepForDay(tasksCompleted: number, totalTasks: number): number`.
Both arguments are array lengths in every call site, so they are `Nat` here and the
source's `tasksCompleted <= 0` test is the `= 0` test. -/
def stepForDay (tasksCompleted totalTasks : Nat) : ℚ :=
  if tasksCompleted = 0 then 0
  else if totalTasks ≤ tasksCompleted then 1       -- giant leap
  else if 4 ≤ tasksCompleted then 0.8
  else if 2 ≤ tasksCompleted then 0.5
  else 0.2

/-- `Number(x.toFixed(2))`: round to two decimal places.  All values it is applied to in
the source are non-negative, where `toFixed` agrees with round-half-up. -/
def round2 (x : ℚ) : ℚ := ((round (x * 100) : ℤ) : ℚ) / 100

/-- `function totalBlocks(goal: Goal): number`:
sum the daily steps with `reduce`, round with `toFixed(2)`, clamp with `Math.min(NUM_DAYS, _)`. -/
def totalBlocks (goal : Goal) : ℚ :=
  let totalTasks := goal.tasks.length
  let blocks := goal.days.foldl (fun sum day => sum + stepForDay day.completedTasks.length totalTasks) 0
  min (NUM_DAYS : ℚ) (round2 blocks)

/-- `function completionPct(goal: Goal): number { return (totalBlocks(goal) / NUM_DAYS) * 100; }` -/
def completionPct (goal : Goal) : ℚ := totalBlocks goal / (NUM_DAYS : ℚ) * 100

/-- `function streakDays(goal: Goal): number`: the source loop walks `i = NUM_DAYS-1 .. 0`,
incrementing while `goal.days[i].completedTasks.length > 0` and breaking at the first empty
day; that is the length of the run of non-empty days at the front of the reversed list. -/
def streakDays (goal : Goal) : Nat :=
  (goal.days.reverse.takeWhile fun day => decide (0 < day.completedTasks.length)).length

/-- `array.map((x, idx) => f(idx, x))`: an index-aware map, with the running index explicit. -/
def mapWithIdx {α β : Type} (f : Nat → α → β) : Nat → List α → List β
  | _, [] => []
  | i, a :: as => f i a :: mapWithIdx f (i + 1) as

/-- `new Set(arr)` for an array of strings: iteration is in insertion order and keeps the
first occurrence of each element. -/
def setFromArray : List String → List String
  | [] => []
  | a :: as => a :: setFromArray (as.filter fun b => b ≠ a)
termination_by l => l.length
decreasing_by
  simp only [List.length_cons]
  exact Nat.lt_succ_of_le (List.length_filter_le _ _)

/-- The day-level body of `handleToggleTask`:
`new Set(day.completedTasks)`, then `delete` if present / `add` otherwise (`add` appends at
the end of the iteration order), then `Array.from`. -/
def toggleDay (taskId : String) (day : DayState) : DayState :=
  let completed := setFromArray day.completedTasks
  { day with completedTasks :=
      if taskId ∈ completed then completed.erase taskId else completed ++ [taskId] }

/-- `handleToggleTask(goalId, taskId, dIndex)` as a pure state transformer. -/
def toggleTask (state : TrackerState) (goalId taskId : String) (dIndex : Nat) : TrackerState :=
  { state with goals := state.goals.map (fun g =>
      if g.id ≠ goalId then g
      else { g with days := mapWithIdx (fun idx day =>
        if idx ≠ dIndex then day else toggleDay taskId day) 0 g.days }) }

/-- `handleUpdateNote(goalId, dIndex, note)` as a pure state transformer. -/
def setNote (state : TrackerState) (goalId : String) (dIndex : Nat) (note : String) : TrackerState :=
  { state with goals := state.goals.map (fun g =>
      if g.id ≠ goalId then g
      else { g with days := mapWithIdx (fun idx day =>
        if idx = dIndex then { day with note := some note } else day) 0 g.days }) }

/-- Days between `y-m-d` (proleptic Gregorian, `y ≥ 1`) and 1970-01-01; the civil-from-days
algorithm used by JS `Date` arithmetic on UTC midnights. -/
def civilToEpochDays (y m d : Nat) : Int :=
  let yAdj := if m ≤ 2 then y - 1 else y
  let era := yAdj / 400
  let yoe := yAdj % 400
  let mp := if 2 < m then m - 3 else m + 9
  let doy := (153 * mp + 2) / 5 + (d - 1)
  let doe := yoe * 365 + yoe / 4 - yoe / 100 + doy
  (era : Int) * 146097 + (doe : Int) - 719468

/-- Inverse of `civilToEpochDays` (valid for days at or after 0000-03-01). -/
def civilFromEpochDays (z : Int) : Nat × Nat × Nat :=
  let shift := (z + 719468).toNat
  let era := shift / 146097
  let doe := shift % 146097
  let yoe := (doe - doe / 1460 + doe / 36524 - doe / 146096) / 365
  let y := yoe + era * 400
  let doy := doe - (365 * yoe + yoe / 4 - yoe / 100)
  let mp := (5 * doy + 2) / 153
  let d := doy - (153 * mp + 2) / 5 + 1
  let m := if mp < 10 then mp + 3 else mp - 9
  (if m ≤ 2 then y + 1 else y, m, d)

/-- Two-digit zero padding, as in an ISO date. -/
def pad2 (n : Nat) : String := if n < 10 then "0" ++ toString n else toString n

/-- Four-digit zero padding, as in an ISO year. -/
def pad4 (n : Nat) : String :=
  if n < 10 then "000" ++ toString n
  else if n < 100 then "00" ++ toString n
  else if n < 1000 then "0" ++ toString n
  else toString n

/-- `date.toISOString().slice(0, 10)` for a UTC-midnight date given as a civil triple. -/
def isoOfCivil (y m d : Nat) : String := pad4 y ++ "-" ++ pad2 m ++ "-" ++ pad2 d

/-- `new Date(s)` for the date-only `"YYYY-MM-DD"` strings this app stores. -/
def parseISO (s : String) : Option (Nat × Nat × Nat) :=
  match s.splitOn "-" with
  | [ys, ms, ds] =>
    match ys.toNat?, ms.toNat?, ds.toNat? with
    | some y, some m, some d => some (y, m, d)
    | _, _, _ => none
  | _ => none

/-- One insertion step of a stable sort that orders `(goal, pct)` pairs by descending `pct`:
an element moves before the first strictly smaller key and after every earlier equal key. -/
def insertByPct (x : Goal × ℚ) : List (Goal × ℚ) → List (Goal × ℚ)
  | [] => [x]
  | y :: ys => if y.2 ≤ x.2 then x :: y :: ys else y :: insertByPct x ys

/-- `.sort((a, b) => b.pct - a.pct)`: `Array.prototype.sort` is stable, and a stable sort by
one key is unique, so the stable insertion sort below computes exactly the source's result. -/
def sortByPctDesc : List (Goal × ℚ) → List (Goal × ℚ)
  | [] => []
  | x :: l => insertByPct x (sortByPctDesc l)

/-- `handleStartNewWeek()` as a pure state transformer.  `today` is the value of
`todayISO()` at the moment of the rollover; `endISO` mirrors
`new Date(start.getTime() + (NUM_DAYS - 1) * DAY_MS).toISOString().slice(0, 10)`
(for an unparseable stored date JS would throw a `RangeError`; that branch is unreachable
from valid states and is given a placeholder string here). -/
def rollover (state : TrackerState) (today : String) : TrackerState :=
  let endISO := match parseISO state.weekStartISO with
    | some (y, m, d) =>
        let c := civilFromEpochDays (civilToEpochDays y m d + (NUM_DAYS - 1))
        isoOfCivil c.1 c.2.1 c.2.2
    | none => "Invalid Date"
  let totalPossible := state.goals.foldl (fun sum g => sum + g.tasks.length * NUM_DAYS) 0
  let totalCompleted := state.goals.foldl
    (fun sum g => sum + g.days.foldl (fun inner d => inner + d.completedTasks.length) 0) 0
  let bestGoal := (sortByPctDesc (state.goals.map fun g => (g, completionPct g))).head?
  let summary : WeekSummary :=
    { id := state.weekStartISO
      startISO := state.weekStartISO
      endISO := endISO
      totalCompletedTasks := totalCompleted
      totalPossibleTasks := totalPossible
      bestGoalId := bestGoal.map fun b => b.1.id
      bestGoalLabel := bestGoal.map fun b => b.1.label
      bestGoalCompletion := (bestGoal.map fun b => b.2).getD 0 }
  { weekStartISO := today
    goals := state.goals.map fun g => { g with days := emptyDays }
    history := state.history ++ [summary] }

/-- A JSON document, the value of `JSON.parse` on the stored string.  Numbers are modelled
as rationals (the app only ever stores integers and finite decimal fractions). -/
inductive Json where
  | null : Json
  | bool : Bool → Json
  | num : ℚ → Json
  | str : String → Json
  | arr : List Json → Json
  | obj : List (String × Json) → Json

/-- Reading a named field of a parsed JS object (`undefined` when absent). -/
def getField (fields : List (String × Json)) (key : String) : Option Json :=
  (fields.find? fun f => f.1 == key).map (fun f => f.2)

/-- `JSON.stringify` of a `Section` value (a string literal union in the source). -/
def encodeSection : Section → Json
  | .studies => .str "Studies"
  | .personalLife => .str "Personal Life"

/-- Reading a parsed JSON value as a `Section`. -/
def decodeSection : Json → Option Section
  | .str "Studies" => some .studies
  | .str "Personal Life" => some .personalLife
  | _ => none

/-- `JSON.stringify` of a `TaskTemplate`. -/
def encodeTask (t : TaskTemplate) : Json :=
  .obj [("id", .str t.id), ("label", .str t.label)]

/-- Reading a parsed JSON value as a `TaskTemplate`. -/
def decodeTask : Json → Option TaskTemplate
  | .obj fields =>
    match getField fields "id", getField fields "label" with
    | some (.str i), some (.str l) => some { id := i, label := l }
    | _, _ => none
  | _ => none

/-- `JSON.stringify` of a `DayState`; an `undefined` optional `note` is omitted. -/
def encodeDay (d : DayState) : Json :=
  .obj ([("completedTasks", .arr (d.completedTasks.map .str))] ++
    match d.note with
    | some n => [("note", .str n)]
    | none => [])

/-- Reading a parsed JSON value as a string array. -/
def decodeStringList : Json → Option (List String)
  | .arr es => es.mapM (fun e => match e with | .str s => some s | _ => none)
  | _ => none

/-- Reading a parsed JSON value as a `DayState` (absent `note` field = `none`). -/
def decodeDay : Json → Option DayState
  | .obj fields =>
    match (getField fields "completedTasks").bind decodeStringList with
    | some ct =>
      match getField fields "note" with
      | none => some { completedTasks := ct, note := none }
      | some (.str n) => some { completedTasks := ct, note := some n }
      | some _ => none
    | none => none
  | _ => none

/-- Reading a parsed JSON array elementwise. -/
def decodeList {α : Type} (dec : Json → Option α) : Json → Option (List α)
  | .arr es => es.mapM dec
  | _ => none

/-- `JSON.stringify` of a `Goal`. -/
def encodeGoal (g : Goal) : Json :=
  .obj [("id", .str g.id), ("label", .str g.label), ("section", encodeSection g.«section»),
        ("tasks", .arr (g.tasks.map encodeTask)), ("days", .arr (g.days.map encodeDay))]

/-- Reading a parsed JSON value as a `Goal`. -/
def decodeGoal (j : Json) : Option Goal :=
  match j with
  | .obj fields =>
    match getField fields "id", getField fields "label", getField fields "section",
          getField fields "tasks", getField fields "days" with
    | some (.str i), some (.str l), some sec, some tasks, some days =>
      match decodeSection sec, decodeList decodeTask tasks, decodeList decodeDay days with
      | some s, some ts, some ds =>
        some { id := i, label := l, «section» := s, tasks := ts, days := ds }
      | _, _, _ => none
    | _, _, _, _, _ => none
  | _ => none

/-- Reading a parsed JSON number as the natural number the app stored there. -/
def decodeNat : Json → Option Nat
  | .num q => if q.den = 1 ∧ 0 ≤ q.num then some q.num.toNat else none
  | _ => none

/-- `JSON.stringify` of a nullable string field (`?? null` in the source). -/
def encodeNullableStr : Option String → Json
  | some s => .str s
  | none => .null

/-- Reading a parsed JSON value as a nullable string field. -/
def decodeNullableStr : Json → Option (Option String)
  | .str s => some (some s)
  | .null => some none
  | _ => none

/-- `JSON.stringify` of a `WeekSummary`. -/
def encodeSummary (w : WeekSummary) : Json :=
  .obj [("id", .str w.id), ("startISO", .str w.startISO), ("endISO", .str w.endISO),
        ("totalCompletedTasks", .num (w.totalCompletedTasks : ℚ)),
        ("totalPossibleTasks", .num (w.totalPossibleTasks : ℚ)),
        ("bestGoalId", encodeNullableStr w.bestGoalId),
        ("bestGoalLabel", encodeNullableStr w.bestGoalLabel),
        ("bestGoalCompletion", .num w.bestGoalCompletion)]

/-- Reading a parsed JSON value as a `WeekSummary`. -/
def decodeSummary (j : Json) : Option WeekSummary :=
  match j with
  | .obj fields =>
    match getField fields "id", getField fields "startISO", getField fields "endISO" with
    | some (.str i), some (.str s), some (.str e) =>
      match (getField fields "totalCompletedTasks").bind decodeNat,
            (getField fields "totalPossibleTasks").bind decodeNat,
            (getField fields "bestGoalId").bind decodeNullableStr,
            (getField fields "bestGoalLabel").bind decodeNullableStr,
            getField fields "bestGoalCompletion" with
      | some tc, some tp, some bi, some bl, some (.num bc) =>
        some { id := i, startISO := s, endISO := e, totalCompletedTasks := tc,
               totalPossibleTasks := tp, bestGoalId := bi, bestGoalLabel := bl,
               bestGoalCompletion := bc }
      | _, _, _, _, _ => none
    | _, _, _ => none
  | _ => none

/-- `JSON.stringify` of the whole `TrackerState` aggregate. -/
def encodeState (s : TrackerState) : Json :=
  .obj [("weekStartISO", .str s.weekStartISO),
        ("goals", .arr (s.goals.map encodeGoal)),
        ("history", .arr (s.history.map encodeSummary))]

/-- Reading a parsed JSON value as a `TrackerState`. -/
def decodeState (j : Json) : Option TrackerState :=
  match j with
  | .obj fields =>
    match getField fields "weekStartISO", getField fields "goals", getField fields "history" with
    | some (.str w), some goals, some history =>
      match decodeList decodeGoal goals, decodeList decodeSummary history with
      | some gs, some hs => some { weekStartISO := w, goals := gs, history := hs }
      | _, _ => none
    | _, _, _ => none
  | _ => none

/-- `function saveState(state) { localStorage.setItem(STORAGE_KEY, JSON.stringify(state)); }`:
the stored string is modelled by the JSON tree it prints (JSON text round-trips losslessly
through `JSON.parse`). -/
def saveState (state : TrackerState) : Json := encodeState state

/-- `function loadState(): TrackerState`.  The raw `localStorage` cell is modelled by the
outcome of `JSON.parse` on it: `none` = key missing (`!raw`), `some none` = a string on
which `JSON.parse` throws (the `catch` branch), `some (some j)` = it parses to `j`.  The
source then returns the parsed object through an unchecked cast; reading it in the
`TrackerState` shape is `decodeState`, with the seed default standing in for parse results
outside that shape (a case no claim and no test of the source constrains). -/
def loadState (today : String) (raw : Option (Option Json)) : TrackerState :=
  match raw with
  | none => defaultState today
  | some none => defaultState today
  | some (some j) => (decodeState j).getD (defaultState today)

/-- The states reachable from the seed state through the public mutations.  `today0` is the
date the seed state was created; the mutation arguments are arbitrary, as in the source. -/
inductive Reachable (today0 : String) : TrackerState → Prop where
  | seed : Reachable today0 (defaultState today0)
  | toggle (s : TrackerState) (goalId taskId : String) (dIndex : Nat) :
      Reachable today0 s → Reachable today0 (toggleTask s goalId taskId dIndex)
  | note (s : TrackerState) (goalId : String) (dIndex : Nat) (text : String) :
      Reachable today0 s → Reachable today0 (setNote s goalId dIndex text)
  | roll (s : TrackerState) (today : String) :
      Reachable today0 s → Reachable today0 (rollover s today)

/-! ### Spec-side definitions (from the spec's words, for refinement claims) -/

/-- The spec's step ladder, read literally as a first-matching-case policy:
`completedCount = 0 → 0`, `≥ totalTasks → 1.0`, `≥ 4 → 0.8`, `≥ 2 → 0.5`, otherwise `0.2`. -/
def stepForDaySpecLadder (completedCount totalTasks : Nat) : ℚ :=
  if completedCount = 0 then 0
  else if totalTasks ≤ completedCount then 1
  else if 4 ≤ completedCount then 0.8
  else if 2 ≤ completedCount then 0.5
  else 0.2

/-! ### Helper lemmas -/

theorem foldl_add_eq_sum {α M : Type} [AddCommMonoid M] (f : α → M) (init : M) (l : List α) :
    l.foldl (fun s a => s + f a) init = init + (l.map f).sum := by
  induction l generalizing init with
  | nil => simp
  | cons a as ih => simp [ih, add_assoc]

theorem stepForDay_nonneg (c T : Nat) : 0 ≤ stepForDay c T := by
  unfold stepForDay; split_ifs <;> norm_num

theorem round2_mono {x y : ℚ} (h : x ≤ y) : round2 x ≤ round2 y := by
  unfold round2
  have hr : round (x * 100) ≤ round (y * 100) := by
    rw [round_eq, round_eq]
    exact Int.floor_le_floor (by linarith)
  have hq : ((round (x * 100) : ℤ) : ℚ) ≤ ((round (y * 100) : ℤ) : ℚ) := by exact_mod_cast hr
  linarith

theorem round2_zero : round2 0 = 0 := by
  unfold round2; norm_num

theorem round2_nonneg {x : ℚ} (h : 0 ≤ x) : 0 ≤ round2 x := by
  have := round2_mono h
  rw [round2_zero] at this
  exact this

/-! ### Claims -/

/-- Claim C1: `stepForDay(c, T)` equals the first matching case of the spec's ladder
(`c = 0 → 0`, `c ≥ T → 1.0`, `c ≥ 4 → 0.8`, `c ≥ 2 → 0.5`, otherwise `0.2`); in particular
`stepForDay(0, T) = 0` and `stepForDay(T, T) = 1.0` for all `T ≥ 1`, and the zero-tasks edge
case `stepForDay(0, 0)` returns `0` without error. -/
theorem stepForDay_matches_spec :
    (∀ c T : Nat, stepForDay c T = stepForDaySpecLadder c T) ∧
    (∀ T : Nat, 1 ≤ T → stepForDay 0 T = 0 ∧ stepForDay T T = 1) ∧
    stepForDay 0 0 = 0 := by
  refine ⟨fun c T => rfl, fun T hT => ⟨by simp [stepForDay], ?_⟩, rfl⟩
  unfold stepForDay
  rw [if_neg (by omega), if_pos le_rfl]

/-- Witness for C1 at `T = 3`. -/
theorem stepForDay_matches_spec_witness :
    stepForDay 0 3 = 0 ∧ stepForDay 3 3 = 1 :=
  stepForDay_matches_spec.2.1 3 (by norm_num)

/-- A sample goal with 2 tasks, one task completed on each of the 7 days. -/
def sampleGoal : Goal :=
  { id := "G", label := "G", «section» := Section.studies,
    tasks := [⟨"a", "a"⟩, ⟨"b", "b"⟩],
    days := List.replicate 7 (⟨["a"], some ""⟩ : DayState) }

/-- Claim C2: for a 7-day goal, `totalBlocks` is the sum of `stepForDay` over the days,
rounded to 2 decimals and then clamped to at most 7 (in that order), and the result lies
in `[0, 7]` no matter how many tasks are completed. -/
theorem totalBlocks_spec (goal : Goal) (h7 : goal.days.length = 7) :
    totalBlocks goal =
      min 7 (round2 ((goal.days.map fun day =>
        stepForDay day.completedTasks.length goal.tasks.length).sum)) ∧
    0 ≤ totalBlocks goal ∧ totalBlocks goal ≤ 7 := by
  have heq : totalBlocks goal =
      min 7 (round2 ((goal.days.map fun day =>
        stepForDay day.completedTasks.length goal.tasks.length).sum)) := by
    unfold totalBlocks
    dsimp only
    rw [foldl_add_eq_sum]
    norm_num [NUM_DAYS]
  refine ⟨heq, ?_, ?_⟩
  · rw [heq]
    refine le_min (by norm_num) (round2_nonneg (List.sum_nonneg ?_))
    intro x hx
    obtain ⟨day, _, rfl⟩ := List.mem_map.mp hx
    exact stepForDay_nonneg _ _
  · rw [heq]
    exact min_le_left _ _

/-- Witness for C2 at a concrete 7-day goal. -/
theorem totalBlocks_spec_witness :
    0 ≤ totalBlocks sampleGoal ∧ totalBlocks sampleGoal ≤ 7 :=
  (totalBlocks_spec sampleGoal rfl).2

theorem length_takeWhile_le {α : Type} (p : α → Bool) (l : List α) :
    (l.takeWhile p).length ≤ l.length := by
  induction l with
  | nil => simp
  | cons a as ih =>
    rw [List.takeWhile_cons]
    split <;> simp <;> omega

theorem takeWhile_getD_true {α : Type} (p : α → Bool) (l : List α) (d : α) :
    ∀ j, j < (l.takeWhile p).length → p (l.getD j d) = true := by
  induction l with
  | nil => simp
  | cons a as ih =>
    intro j hj
    rw [List.takeWhile_cons] at hj
    by_cases hpa : p a
    · simp only [hpa, if_true, List.length_cons] at hj
      cases j with
      | zero => simpa using hpa
      | succ j => simpa using ih j (by omega)
    · simp [hpa] at hj

theorem getD_length_takeWhile_false {α : Type} (p : α → Bool) (l : List α) (d : α) :
    (l.takeWhile p).length < l.length → p (l.getD (l.takeWhile p).length d) = false := by
  induction l with
  | nil => simp
  | cons a as ih =>
    intro h
    rw [List.takeWhile_cons]
    by_cases hpa : p a
    · rw [List.takeWhile_cons, if_pos hpa] at h
      simp only [hpa, if_true, List.length_cons, List.getD_cons_succ]
      exact ih (by simpa using h)
    · simp only [hpa, if_false, Bool.false_eq_true, List.length_nil, List.getD_cons_zero]

theorem takeWhile_eq_self_of_all {α : Type} (p : α → Bool) (l : List α)
    (h : ∀ x ∈ l, p x = true) : l.takeWhile p = l := by
  induction l with
  | nil => rfl
  | cons a as ih =>
    rw [List.takeWhile_cons, if_pos (h a (by simp))]
    rw [ih fun x hx => h x (by simp [hx])]

theorem getD_reverse {α : Type} (l : List α) (d : α) (j : Nat) (hj : j < l.length) :
    l.reverse.getD j d = l.getD (l.length - 1 - j) d := by
  have h1 : l.reverse[j]? = l[l.length - 1 - j]? := List.getElem?_reverse (by simpa)
  simp [List.getD_eq_getElem?_getD, h1]

/-- Claim C3: for a 7-day goal, `streakDays` is the length of the maximal trailing run of
days with at least one completed task (backward scan from index 6, stopping at the first
empty day): it is 0 whenever day 6 is empty, 7 when all days are non-empty, at most 7, every
day from index `7 - streak` on is non-empty, and when the streak is below 7 the day just
before it (index `6 - streak`) is empty. -/
theorem streakDays_spec (goal : Goal) (h7 : goal.days.length = 7) :
    streakDays goal ≤ 7 ∧
    ((goal.days.getD 6 emptyDay).completedTasks.length = 0 → streakDays goal = 0) ∧
    ((∀ day ∈ goal.days, 0 < day.completedTasks.length) → streakDays goal = 7) ∧
    (∀ i, i < 7 → 7 - streakDays goal ≤ i →
      0 < (goal.days.getD i emptyDay).completedTasks.length) ∧
    (streakDays goal < 7 →
      (goal.days.getD (6 - streakDays goal) emptyDay).completedTasks.length = 0) := by
  have hrl : goal.days.reverse.length = 7 := by simpa using h7
  have hle : streakDays goal ≤ 7 := by
    have := length_takeWhile_le
      (fun day => decide (0 < day.completedTasks.length)) goal.days.reverse
    unfold streakDays
    omega
  refine ⟨hle, ?_, ?_, ?_, ?_⟩
  · intro h6
    by_contra hne
    have hpos : 0 < streakDays goal := Nat.pos_of_ne_zero hne
    unfold streakDays at hpos
    have ht := takeWhile_getD_true
      (fun day => decide (0 < day.completedTasks.length)) goal.days.reverse emptyDay 0 hpos
    rw [getD_reverse _ _ _ (by omega : 0 < goal.days.length)] at ht
    have hidx : goal.days.length - 1 - 0 = 6 := by omega
    rw [hidx] at ht
    simp only [decide_eq_true_eq] at ht
    omega
  · intro hall
    unfold streakDays
    rw [takeWhile_eq_self_of_all _ _ fun x hx => by
      simpa using hall x (List.mem_reverse.mp hx)]
    exact hrl
  · intro i hi hstreak
    have hk : 6 - i < streakDays goal := by omega
    unfold streakDays at hk
    have ht := takeWhile_getD_true
      (fun day => decide (0 < day.completedTasks.length)) goal.days.reverse emptyDay (6 - i) hk
    rw [getD_reverse _ _ _ (by omega : 6 - i < goal.days.length)] at ht
    have hidx : goal.days.length - 1 - (6 - i) = i := by omega
    rw [hidx] at ht
    simpa only [decide_eq_true_eq] using ht
  · intro hlt
    have hlt2 : (goal.days.reverse.takeWhile
        (fun day => decide (0 < day.completedTasks.length))).length < goal.days.reverse.length := by
      unfold streakDays at hlt; omega
    have ht := getD_length_takeWhile_false
      (fun day => decide (0 < day.completedTasks.length)) goal.days.reverse emptyDay hlt2
    rw [getD_reverse _ _ _ (by unfold streakDays at hlt; omega)] at ht
    unfold streakDays at hlt ⊢
    have hidx : goal.days.length - 1 -
        (goal.days.reverse.takeWhile
          (fun day => decide (0 < day.completedTasks.length))).length =
        6 - (goal.days.reverse.takeWhile
          (fun day => decide (0 < day.completedTasks.length))).length := by omega
    rw [hidx] at ht
    simp only [decide_eq_false_iff_not, Nat.not_lt, Nat.le_zero] at ht
    exact ht

/-- A sample 7-day goal whose last day is empty. -/
def sampleGoalGap : Goal :=
  { id := "G", label := "G", «section» := Section.studies,
    tasks := [⟨"a", "a"⟩],
    days := [⟨["a"], some ""⟩, ⟨[], some ""⟩, ⟨["a"], some ""⟩, ⟨["a"], some ""⟩,
             ⟨[], some ""⟩, ⟨["a"], some ""⟩, ⟨[], some ""⟩] }

/-- Witness for C3 at a concrete 7-day goal with an empty final day. -/
theorem streakDays_spec_witness :
    streakDays sampleGoalGap ≤ 7 ∧ streakDays sampleGoalGap = 0 :=
  ⟨(streakDays_spec sampleGoalGap rfl).1,
   (streakDays_spec sampleGoalGap rfl).2.1 rfl⟩

theorem stepForDay_mono {c₁ c₂ : Nat} (T : Nat) (h : c₁ ≤ c₂) :
    stepForDay c₁ T ≤ stepForDay c₂ T := by
  unfold stepForDay
  split_ifs <;> try norm_num
  all_goals omega

/-- Claim C4: `completionPct` is monotonic non-decreasing in the completed-task count of any
single day, all other days (and the task list) held fixed. -/
theorem completionPct_mono (g₁ g₂ : Goal) (pre post : List DayState) (d₁ d₂ : DayState)
    (htasks : g₁.tasks = g₂.tasks)
    (h₁ : g₁.days = pre ++ d₁ :: post) (h₂ : g₂.days = pre ++ d₂ :: post)
    (hc : d₁.completedTasks.length ≤ d₂.completedTasks.length) :
    completionPct g₁ ≤ completionPct g₂ := by
  have hb : totalBlocks g₁ ≤ totalBlocks g₂ := by
    unfold totalBlocks
    dsimp only
    rw [foldl_add_eq_sum, foldl_add_eq_sum, h₁, h₂, htasks]
    refine min_le_min le_rfl (round2_mono ?_)
    simp only [List.map_append, List.map_cons, List.sum_append, List.sum_cons]
    have := stepForDay_mono g₂.tasks.length hc
    linarith
  unfold completionPct
  have h7 : (0 : ℚ) < (NUM_DAYS : ℚ) := by norm_num [NUM_DAYS]
  exact mul_le_mul_of_nonneg_right ((div_le_div_iff_of_pos_right h7).mpr hb) (by norm_num)

/-- A sample goal differing from `sampleGoal` only on day 0, where nothing is completed. -/
def sampleGoalDayZeroEmpty : Goal :=
  { id := "G", label := "G", «section» := Section.studies,
    tasks := [⟨"a", "a"⟩, ⟨"b", "b"⟩],
    days := ⟨[], some ""⟩ :: List.replicate 6 (⟨["a"], some ""⟩ : DayState) }

/-- Witness for C4: completing one more task on day 0 cannot lower `completionPct`. -/
theorem completionPct_mono_witness :
    completionPct sampleGoalDayZeroEmpty ≤ completionPct sampleGoal :=
  completionPct_mono sampleGoalDayZeroEmpty sampleGoal []
    (List.replicate 6 (⟨["a"], some ""⟩ : DayState)) ⟨[], some ""⟩ ⟨["a"], some ""⟩
    rfl rfl rfl (by norm_num)

theorem mem_setFromArray (a : String) : ∀ l : List String, a ∈ setFromArray l ↔ a ∈ l := by
  intro l
  induction l using setFromArray.induct with
  | case1 => simp [setFromArray]
  | case2 b as ih =>
    rw [setFromArray]
    simp only [List.mem_cons, ih, List.mem_filter, decide_eq_true_eq]
    by_cases hab : a = b
    · simp [hab]
    · simp [hab]

theorem nodup_setFromArray : ∀ l : List String, (setFromArray l).Nodup := by
  intro l
  induction l using setFromArray.induct with
  | case1 => simp [setFromArray]
  | case2 b as ih =>
    rw [setFromArray]
    refine List.nodup_cons.mpr ⟨?_, ih⟩
    rw [mem_setFromArray]
    simp [List.mem_filter]

theorem length_mapWithIdx {α β : Type} (f : Nat → α → β) :
    ∀ (s : Nat) (l : List α), (mapWithIdx f s l).length = l.length := by
  intro s l
  induction l generalizing s with
  | nil => rfl
  | cons a as ih => simp [mapWithIdx, ih]

theorem getD_mapWithIdx {α : Type} (f : Nat → α → α) (d : α) :
    ∀ (l : List α) (s j : Nat), j < l.length →
      (mapWithIdx f s l).getD j d = f (s + j) (l.getD j d) := by
  intro l
  induction l with
  | nil => simp
  | cons a as ih =>
    intro s j hj
    cases j with
    | zero => simp [mapWithIdx]
    | succ j =>
      simp only [mapWithIdx, List.getD_cons_succ]
      rw [ih (s + 1) j (by simpa using hj)]
      have harg : s + 1 + j = s + (j + 1) := by omega
      rw [harg]

theorem toggleDay_note (taskId : String) (day : DayState) :
    (toggleDay taskId day).note = day.note := rfl

theorem toggleDay_mem (taskId : String) (day : DayState) :
    taskId ∈ (toggleDay taskId day).completedTasks ↔ taskId ∉ day.completedTasks := by
  unfold toggleDay
  dsimp only
  by_cases hmem : taskId ∈ setFromArray day.completedTasks
  · rw [if_pos hmem]
    have hnd := nodup_setFromArray day.completedTasks
    rw [mem_setFromArray] at hmem
    simp [List.Nodup.mem_erase_iff hnd, hmem]
  · rw [if_neg hmem]
    rw [mem_setFromArray] at hmem
    simp [hmem]

/-- An inert default `Goal`, used only as the default of `List.getD`. -/
def blankGoal : Goal :=
  { id := "", label := "", «section» := Section.studies, tasks := [], days := [] }

/-- Claim C8: `toggleTask` flips membership of `taskId` in `days[dayIndex].completedTasks` of
each goal whose id is `goalId`, is a no-op when no goal has that id, and changes nothing
else: `weekStartISO`, the history, goals with other ids, the named goal's other fields and
other days, and the toggled day's note are all unchanged. -/
theorem toggleTask_spec (s : TrackerState) (goalId taskId : String) (dIndex : Nat)
    (hd : dIndex ≤ 6) (hlen : ∀ g ∈ s.goals, g.days.length = 7) :
    (toggleTask s goalId taskId dIndex).weekStartISO = s.weekStartISO ∧
    (toggleTask s goalId taskId dIndex).history = s.history ∧
    ((∀ g ∈ s.goals, g.id ≠ goalId) → toggleTask s goalId taskId dIndex = s) ∧
    (toggleTask s goalId taskId dIndex).goals.length = s.goals.length ∧
    (∀ i, i < s.goals.length →
      ((s.goals.getD i blankGoal).id ≠ goalId →
        (toggleTask s goalId taskId dIndex).goals.getD i blankGoal = s.goals.getD i blankGoal) ∧
      ((s.goals.getD i blankGoal).id = goalId →
        ((toggleTask s goalId taskId dIndex).goals.getD i blankGoal).id =
          (s.goals.getD i blankGoal).id ∧
        ((toggleTask s goalId taskId dIndex).goals.getD i blankGoal).label =
          (s.goals.getD i blankGoal).label ∧
        ((toggleTask s goalId taskId dIndex).goals.getD i blankGoal).«section» =
          (s.goals.getD i blankGoal).«section» ∧
        ((toggleTask s goalId taskId dIndex).goals.getD i blankGoal).tasks =
          (s.goals.getD i blankGoal).tasks ∧
        ((toggleTask s goalId taskId dIndex).goals.getD i blankGoal).days.length =
          (s.goals.getD i blankGoal).days.length ∧
        (∀ j, j < 7 → j ≠ dIndex →
          ((toggleTask s goalId taskId dIndex).goals.getD i blankGoal).days.getD j emptyDay =
            (s.goals.getD i blankGoal).days.getD j emptyDay) ∧
        (((toggleTask s goalId taskId dIndex).goals.getD i blankGoal).days.getD dIndex
            emptyDay).note =
          ((s.goals.getD i blankGoal).days.getD dIndex emptyDay).note ∧
        (taskId ∈ (((toggleTask s goalId taskId dIndex).goals.getD i blankGoal).days.getD
            dIndex emptyDay).completedTasks ↔
          taskId ∉ ((s.goals.getD i blankGoal).days.getD dIndex emptyDay).completedTasks))) := by
  refine ⟨rfl, rfl, ?_, by simp [toggleTask], ?_⟩
  · intro hnone
    show { s with goals := _ } = s
    have hmap : s.goals.map (fun g =>
        if g.id ≠ goalId then g
        else { g with days := mapWithIdx (fun idx day =>
          if idx ≠ dIndex then day else toggleDay taskId day) 0 g.days }) = s.goals := by
      conv_rhs => rw [← List.map_id s.goals]
      apply List.map_congr_left
      intro g hg
      simp [hnone g hg]
    rw [hmap]
  · intro i hi
    have hi2 : i < (toggleTask s goalId taskId dIndex).goals.length := by
      simpa [toggleTask] using hi
    have hgetD : (toggleTask s goalId taskId dIndex).goals.getD i blankGoal =
        (fun g => if g.id ≠ goalId then g
          else { g with days := mapWithIdx (fun idx day =>
            if idx ≠ dIndex then day else toggleDay taskId day) 0 g.days })
          (s.goals.getD i blankGoal) := by
      show (s.goals.map _).getD i blankGoal = _
      rw [List.getD_eq_getElem _ _ (by simpa using hi), List.getD_eq_getElem _ _ hi,
        List.getElem_map]
    constructor
    · intro hne
      rw [hgetD]
      dsimp only
      rw [if_pos hne]
    · intro heq
      have hglen : (s.goals.getD i blankGoal).days.length = 7 := by
        refine hlen _ ?_
        rw [List.getD_eq_getElem _ _ hi]
        exact List.getElem_mem _
      rw [hgetD]
      dsimp only
      rw [if_neg (not_not_intro heq)]
      refine ⟨rfl, rfl, rfl, rfl, length_mapWithIdx _ _ _, ?_, ?_, ?_⟩
      · intro j hj hjne
        rw [getD_mapWithIdx _ _ _ _ _ (by omega)]
        simp only [Nat.zero_add]
        rw [if_pos hjne]
      · rw [getD_mapWithIdx _ _ _ _ _ (by omega)]
        simp only [Nat.zero_add]
        rw [if_neg (by simp)]
        exact toggleDay_note _ _
      · rw [getD_mapWithIdx _ _ _ _ _ (by omega)]
        simp only [Nat.zero_add]
        rw [if_neg (by simp)]
        exact toggleDay_mem _ _

/-- Witness for C8: toggling a task of the guitar goal in the seed state. -/
theorem toggleTask_spec_witness :
    (toggleTask (defaultState "2025-01-06") "guitar" "guitar-song" 0).weekStartISO =
      (defaultState "2025-01-06").weekStartISO :=
  (toggleTask_spec (defaultState "2025-01-06") "guitar" "guitar-song" 0 (by norm_num)
    (by decide)).1

/-- Claim C9: every reachable state keeps `days.length = 7` for every goal — the seed state
satisfies it and `toggleTask`, `setNote` and `rollover` preserve it. -/
theorem goal_days_length_invariant (today0 : String) (s : TrackerState)
    (h : Reachable today0 s) : ∀ g ∈ s.goals, g.days.length = 7 := by
  induction h with
  | seed =>
    intro g hg
    fin_cases hg <;> rfl
  | toggle s goalId taskId dIndex hr ih =>
    intro g hg
    obtain ⟨g0, hg0, rfl⟩ := List.mem_map.mp hg
    by_cases hid : g0.id ≠ goalId
    · simpa [hid] using ih g0 hg0
    · simp only [hid, if_false]
      simpa [length_mapWithIdx] using ih g0 hg0
  | note s goalId dIndex text hr ih =>
    intro g hg
    obtain ⟨g0, hg0, rfl⟩ := List.mem_map.mp hg
    by_cases hid : g0.id ≠ goalId
    · simpa [hid] using ih g0 hg0
    · simp only [hid, if_false]
      simpa [length_mapWithIdx] using ih g0 hg0
  | roll s today hr ih =>
    intro g hg
    obtain ⟨g0, hg0, rfl⟩ := List.mem_map.mp hg
    simp [emptyDays, NUM_DAYS]

/-- Witness for C9: the first seed goal of a concrete reachable state has 7 days. -/
theorem goal_days_length_invariant_witness :
    (seedGoals.getD 0 blankGoal).days.length = 7 := by
  have hmem : seedGoals.getD 0 blankGoal ∈ seedGoals := by
    rw [List.getD_eq_getElem _ _ (by norm_num [seedGoals])]
    exact List.getElem_mem _
  exact goal_days_length_invariant "2025-01-06" _ Reachable.seed _ hmem

theorem head?_insertByPct (x : Goal × ℚ) (s : List (Goal × ℚ)) :
    (insertByPct x s).head? =
      some (match s.head? with
        | none => x
        | some y => if y.2 ≤ x.2 then x else y) := by
  cases s with
  | nil => rfl
  | cons y ys =>
    by_cases h : y.2 ≤ x.2 <;> simp [insertByPct, h]

/-- The head of the stable descending sort is the first goal attaining the maximal
`completionPct`. -/
theorem bestGoal_firstMax (goals : List Goal) (hne : goals ≠ []) :
    ∃ pre post bg, goals = pre ++ bg :: post ∧
      (∀ g ∈ goals, completionPct g ≤ completionPct bg) ∧
      (∀ g ∈ pre, completionPct g < completionPct bg) ∧
      (sortByPctDesc (goals.map fun g => (g, completionPct g))).head? =
        some (bg, completionPct bg) := by
  induction goals with
  | nil => exact absurd rfl hne
  | cons g gs ih =>
    cases gs with
    | nil =>
      refine ⟨[], [], g, rfl, ?_, by simp, by simp [sortByPctDesc, insertByPct]⟩
      intro g2 hg2
      rw [List.mem_singleton.mp hg2]
    | cons g2 gs2 =>
      obtain ⟨pre, post, bg, hsplit, hmax, hfirst, hhead⟩ := ih (by simp)
      have hstep : (sortByPctDesc ((g :: g2 :: gs2).map fun g3 =>
          (g3, completionPct g3))).head? =
          some (if completionPct bg ≤ completionPct g then (g, completionPct g)
            else (bg, completionPct bg)) := by
        rw [List.map_cons, sortByPctDesc, head?_insertByPct, hhead]
      by_cases hcase : completionPct bg ≤ completionPct g
      · refine ⟨[], g2 :: gs2, g, rfl, ?_, by simp, by rw [hstep, if_pos hcase]⟩
        intro g3 hg3
        rcases List.mem_cons.mp hg3 with rfl | hg3m
        · exact le_rfl
        · exact le_trans (hmax g3 hg3m) hcase
      · refine ⟨g :: pre, post, bg, by rw [hsplit, List.cons_append], ?_, ?_,
          by rw [hstep, if_neg hcase]⟩
        · intro g3 hg3
          rcases List.mem_cons.mp hg3 with rfl | hg3m
          · exact le_of_lt (not_le.mp hcase)
          · exact hmax g3 hg3m
        · intro g3 hg3
          rcases List.mem_cons.mp hg3 with rfl | hg3m
          · exact not_le.mp hcase
          · exact hfirst g3 hg3m

/-- Claim C5: one rollover appends exactly one `WeekSummary` to history (totals summed over
all goals and days, best goal = first goal attaining the maximal `completionPct`, start date
= the finished week's start), never modifies the summaries already present, sets the new
week start to the rollover date, and replaces every goal's days with 7 fresh empty
`DayState`s. -/
theorem rollover_spec (s : TrackerState) (today : String) :
    ∃ summ : WeekSummary,
      (rollover s today).history = s.history ++ [summ] ∧
      (rollover s today).history.length = s.history.length + 1 ∧
      (rollover s today).history.take s.history.length = s.history ∧
      (rollover s today).weekStartISO = today ∧
      (rollover s today).goals =
        s.goals.map (fun g => { g with days := List.replicate 7 emptyDay }) ∧
      summ.id = s.weekStartISO ∧
      summ.startISO = s.weekStartISO ∧
      summ.totalCompletedTasks =
        (s.goals.map fun g => (g.days.map fun d => d.completedTasks.length).sum).sum ∧
      summ.totalPossibleTasks = (s.goals.map fun g => g.tasks.length * 7).sum ∧
      (s.goals = [] →
        summ.bestGoalId = none ∧ summ.bestGoalLabel = none ∧ summ.bestGoalCompletion = 0) ∧
      (s.goals ≠ [] →
        ∃ pre post bg, s.goals = pre ++ bg :: post ∧
          (∀ g ∈ s.goals, completionPct g ≤ completionPct bg) ∧
          (∀ g ∈ pre, completionPct g < completionPct bg) ∧
          summ.bestGoalId = some bg.id ∧ summ.bestGoalLabel = some bg.label ∧
          summ.bestGoalCompletion = completionPct bg) := by
  obtain ⟨summ, e1, e2, e3, e4, e5, e6, e7, e8⟩ :
      ∃ summ : WeekSummary,
        (rollover s today).history = s.history ++ [summ] ∧
        summ.id = s.weekStartISO ∧
        summ.startISO = s.weekStartISO ∧
        summ.totalCompletedTasks = s.goals.foldl
          (fun sum g => sum + g.days.foldl (fun inner d => inner + d.completedTasks.length) 0)
          0 ∧
        summ.totalPossibleTasks =
          s.goals.foldl (fun sum g => sum + g.tasks.length * NUM_DAYS) 0 ∧
        summ.bestGoalId = ((sortByPctDesc (s.goals.map fun g =>
          (g, completionPct g))).head?).map (fun b => b.1.id) ∧
        summ.bestGoalLabel = ((sortByPctDesc (s.goals.map fun g =>
          (g, completionPct g))).head?).map (fun b => b.1.label) ∧
        summ.bestGoalCompletion = (((sortByPctDesc (s.goals.map fun g =>
          (g, completionPct g))).head?).map (fun b => b.2)).getD 0 :=
    ⟨_, rfl, rfl, rfl, rfl, rfl, rfl, rfl, rfl⟩
  refine ⟨summ, e1, by rw [e1]; simp, by rw [e1]; simp, rfl, rfl, e2, e3, ?_, ?_, ?_, ?_⟩
  · rw [e4, foldl_add_eq_sum]
    rw [Nat.zero_add]
    refine congrArg List.sum (List.map_congr_left fun g hg => ?_)
    rw [foldl_add_eq_sum, Nat.zero_add]
  · rw [e5, foldl_add_eq_sum, Nat.zero_add]
    simp [NUM_DAYS]
  · intro he
    rw [he] at e6 e7 e8
    simp only [List.map_nil, sortByPctDesc, Option.map_none, Option.getD_none] at e6 e7 e8
    exact ⟨e6, e7, e8⟩
  · intro hne
    obtain ⟨pre, post, bg, hsplit, hmax, hfirst, hhead⟩ := bestGoal_firstMax s.goals hne
    refine ⟨pre, post, bg, hsplit, hmax, hfirst, ?_, ?_, ?_⟩
    · rw [e6, hhead]; rfl
    · rw [e7, hhead]; rfl
    · rw [e8, hhead]; rfl

/-- Witness for C5: rolling over the seed state sets the new week-start date. -/
theorem rollover_spec_witness :
    (rollover (defaultState "2025-01-06") "2025-01-13").weekStartISO = "2025-01-13" := by
  obtain ⟨summ, h1, h2, h3, h4, hrest⟩ :=
    rollover_spec (defaultState "2025-01-06") "2025-01-13"
  exact h4

theorem mapM_map_eq_some {α : Type} (dec : Json → Option α) (enc : α → Json)
    (h : ∀ a, dec (enc a) = some a) (l : List α) : (l.map enc).mapM dec = some l := by
  induction l with
  | nil => rfl
  | cons a as ih => rw [List.map_cons, List.mapM_cons, h, ih]; rfl

theorem decodeSection_encode (sec : Section) :
    decodeSection (encodeSection sec) = some sec := by
  cases sec <;> rfl

theorem decodeTask_encode (t : TaskTemplate) : decodeTask (encodeTask t) = some t := by
  simp [decodeTask, encodeTask, getField, List.find?]

theorem mapM_loop_map_eq_some {α : Type} (dec : Json → Option α) (enc : α → Json)
    (h : ∀ a, dec (enc a) = some a) :
    ∀ (l : List α) (acc : List α),
      List.mapM.loop dec (l.map enc) acc = some (acc.reverse ++ l) := by
  intro l
  induction l with
  | nil => intro acc; simp [List.mapM.loop]
  | cons a as ih =>
    intro acc
    rw [List.map_cons]
    simp [List.mapM.loop, h, ih]

theorem decodeStringList_encodeList (l : List String) :
    decodeStringList (.arr (l.map .str)) = some l :=
  mapM_map_eq_some (fun e => match e with | .str s => some s | _ => none)
    Json.str (fun a => rfl) l

theorem decodeDay_encode (d : DayState) : decodeDay (encodeDay d) = some d := by
  cases d with
  | mk ct note =>
    cases note with
    | none =>
      simp [decodeDay, encodeDay, getField, List.find?, decodeStringList_encodeList]
    | some n =>
      simp [decodeDay, encodeDay, getField, List.find?, decodeStringList_encodeList]

theorem decodeGoal_encode (g : Goal) : decodeGoal (encodeGoal g) = some g := by
  cases g with
  | mk i l sec tasks days =>
    simp [decodeGoal, encodeGoal, getField, List.find?, decodeSection_encode, decodeList,
      mapM_loop_map_eq_some _ _ decodeTask_encode, mapM_loop_map_eq_some _ _ decodeDay_encode]

theorem decodeNat_encode (n : Nat) : decodeNat (.num (n : ℚ)) = some n := by
  simp [decodeNat, Rat.den_natCast, Rat.num_natCast]

theorem decodeNullableStr_encode (o : Option String) :
    decodeNullableStr (encodeNullableStr o) = some o := by
  cases o <;> rfl

theorem decodeSummary_encode (w : WeekSummary) :
    decodeSummary (encodeSummary w) = some w := by
  cases w with
  | mk i s e tc tp bi bl bc =>
    simp [decodeSummary, encodeSummary, getField, List.find?, decodeNat_encode,
      decodeNullableStr_encode]

theorem decodeState_encode (s : TrackerState) : decodeState (encodeState s) = some s := by
  cases s with
  | mk w goals history =>
    simp [decodeState, encodeState, getField, List.find?, decodeList,
      mapM_loop_map_eq_some _ _ decodeGoal_encode, mapM_loop_map_eq_some _ _ decodeSummary_encode]

/-- Claim C6: for every state reachable from the seed state through the public mutations,
`saveState` followed by `loadState` restores the state exactly — serialization is lossless
for the `TrackerState` shape. -/
theorem save_load_roundtrip (today0 today : String) (s : TrackerState)
    (h : Reachable today0 s) :
    loadState today (some (some (saveState s))) = s := by
  show (decodeState (encodeState s)).getD (defaultState today) = s
  rw [decodeState_encode]
  rfl

/-- Witness for C6: round-trip of the seed state after one toggle. -/
theorem save_load_roundtrip_witness :
    loadState "2025-02-03"
      (some (some (saveState (toggleTask (defaultState "2025-01-06") "guitar"
        "guitar-song" 0)))) =
      toggleTask (defaultState "2025-01-06") "guitar" "guitar-song" 0 :=
  save_load_roundtrip "2025-01-06" "2025-02-03" _
    (Reachable.toggle _ "guitar" "guitar-song" 0 Reachable.seed)

/-- Claim C7: `loadState` never lets an exception escape: a missing storage key and a string
on which `JSON.parse` throws both fall back to the seed default state (in the embedding
`loadState` is total, so no other outcome exists at the load boundary). -/
theorem loadState_fallback (today : String) :
    loadState today none = defaultState today ∧
    loadState today (some none) = defaultState today :=
  ⟨rfl, rfl⟩

end TrackMyLife
